import Mathlib

/-!
Verification development for the StablePay merchant dashboard's
time-bucketing/aggregation core (`generateChartData` / `getEmptyChartData` in
`src/dashboard/components/dashboard/chart/index.tsx`) and the overview page's
stat computation (`DashboardOverview`).

The embedding mirrors the TypeScript source over an ECMAScript-style local
calendar with a fixed UTC offset and no daylight-saving transitions, so local
civil dates coincide with UTC civil dates and `Date.prototype.setDate` /
`setMonth` follow the ECMAScript MakeDay normalization.  Instants are integer
milliseconds since the epoch; monetary amounts are rationals, with `none`
standing for the IEEE NaN produced by `parseFloat` on a non-numeric string
(NaN is absorbing for addition and rounding, which the `Option` arithmetic
below reproduces).
-/

set_option maxHeartbeats 1000000

namespace StablePay

/-! ### Calendar: ECMAScript day/year/month arithmetic -/

/-- 1 when `y` is a Gregorian leap year, else 0 (ECMAScript InLeapYear). -/
def leapDay (y : Int) : Int :=
  if y % 4 = 0 ∧ (y % 100 ≠ 0 ∨ y % 400 = 0) then 1 else 0

/-- Day number of 1 January of year `y` (ECMAScript DayFromYear). -/
def dayFromYear (y : Int) : Int :=
  365 * (y - 1970) + (y - 1969) / 4 - (y - 1901) / 100 + (y - 1601) / 400

/-- Year containing day number `d` (ECMAScript YearFromTime: the unique `y`
with `dayFromYear y ≤ d < dayFromYear (y+1)`, computed by an estimate that is
proved correct in `yearFromDay_mem`/`yearFromDay_unique`). -/
def yearFromDay (d : Int) : Int :=
  if d < dayFromYear (1970 + (10000 * d + 12650) / 3652425)
  then 1969 + (10000 * d + 12650) / 3652425
  else 1970 + (10000 * d + 12650) / 3652425

/-- Days preceding month `m` (1-based) in a year whose leap indicator is `L`;
closed form of the ECMAScript DayWithinYear table (`monthFromDWY_spec` proves
it matches the table's ranges). -/
def monthStart (L m : Int) : Int :=
  (367 * m - 362) / 12 - (if m ≤ 2 then 0 else 2 - L)

/-- Month (1-based) containing day-within-year `w` (ECMAScript MonthFromTime). -/
def monthFromDWY (w L : Int) : Int :=
  (12 * (w + (if 59 + L ≤ w then 2 - L else 0)) + 373) / 367

/-- Day-of-month of day-within-year `w` (ECMAScript DateFromTime: the
day-within-year minus the days preceding its month). -/
def dateFromDWY (w L : Int) : Int :=
  w - monthStart L (monthFromDWY w L) + 1

/-- Day number of year `y`, month `m` (1-based), day-of-month `d` (ECMAScript
MakeDay); out-of-range `d` rolls over linearly, exactly as MakeDay does. -/
def daysFromCivil (y m d : Int) : Int :=
  dayFromYear y + monthStart (leapDay y) m + d - 1

/-- `Date.prototype.getFullYear` of a date whose day number is `z`. -/
def getFullYear (z : Int) : Int := yearFromDay z

/-- 1-based month of day number `z` (`Date.prototype.getMonth` returns this
minus one). -/
def getMonth1 (z : Int) : Int :=
  monthFromDWY (z - dayFromYear (yearFromDay z)) (leapDay (yearFromDay z))

/-- `Date.prototype.getDate` (day-of-month) of day number `z`. -/
def getDate (z : Int) : Int :=
  dateFromDWY (z - dayFromYear (yearFromDay z)) (leapDay (yearFromDay z))

/-! ### JS numeric/string coercions used by the chart code -/

/-- Value of a digit list read most-significant first. -/
def digitsToNat (ds : List Nat) : Nat := ds.foldl (fun a d => 10 * a + d) 0

/-- Split a leading run of decimal digits (as digit values) from a character
list. -/
def takeDigits : List Char → List Nat × List Char
  | [] => ([], [])
  | c :: cs =>
    if c.isDigit then
      ((c.toNat - 48) :: (takeDigits cs).1, (takeDigits cs).2)
    else ([], c :: cs)

/-- A finite JS number, kept as an exact unreduced fraction so that every
computation in the model is kernel-executable (core `Rat` normalization is
not); `Frac.toRat` gives its value.  All fractions built by the model have a
positive denominator. -/
structure Frac where
  num : Int
  den : Nat
deriving DecidableEq, Repr

/-- The rational value of a fraction. -/
def Frac.toRat (x : Frac) : ℚ := (x.num : ℚ) / (x.den : ℚ)

/-- Exact addition of finite JS numbers. -/
def addFrac (a b : Frac) : Frac :=
  ⟨a.num * b.den + b.num * a.den, a.den * b.den⟩

/-- Exact multiplication of finite JS numbers. -/
def mulFrac (a b : Frac) : Frac :=
  ⟨a.num * b.num, a.den * b.den⟩

/-- JS `Math.round` (half-up, i.e. floor of `x + 1/2`) of a fraction;
`jsRoundInt_eq_round` identifies it with Mathlib's `round` on the value. -/
def jsRoundInt (x : Frac) : Int := (2 * x.num + x.den) / (2 * (x.den : Int))

/-- Optional leading sign, as an integer factor. -/
def splitSign : List Char → Int × List Char
  | '-' :: r => (-1, r)
  | '+' :: r => (1, r)
  | r => (1, r)

/-- Model of JS `parseFloat`: skip leading whitespace, optional sign, longest
`digits[.digits]` numeric prefix; `none` models the NaN returned when no
digit is found.  (Exponent and `Infinity` forms are not modelled; the
dashboard's amounts are plain decimal strings.) -/
def jsParseFloat (s : String) : Option Frac :=
  let cs := s.toList.dropWhile Char.isWhitespace
  let sg := splitSign cs
  let ip := takeDigits sg.2
  let fp := match ip.2 with
    | '.' :: r => takeDigits r
    | _ => ([], [])
  if ip.1.length + fp.1.length = 0 then none
  else some ⟨sg.1 * (digitsToNat ip.1 * 10 ^ fp.1.length + digitsToNat fp.1),
    10 ^ fp.1.length⟩

/-- Value of a character as a digit in radices up to 16 (99 when it is not a
hexadecimal digit), covering the `0x`/`0o`/`0b` numeral alphabets of JS
`Number`. -/
def digitVal (c : Char) : Nat :=
  if '0' ≤ c ∧ c ≤ '9' then c.toNat - 48
  else if 'a' ≤ c ∧ c ≤ 'f' then c.toNat - 97 + 10
  else if 'A' ≤ c ∧ c ≤ 'F' then c.toNat - 65 + 10
  else 99

/-- Value of a base-`b` digit list read most-significant first. -/
def radixToNat (b : Nat) (ds : List Char) : Nat :=
  ds.foldl (fun a c => b * a + digitVal c) 0

/-- Body of a `0b`/`0o`/`0x` numeral: the whole remaining input must be a
nonempty run of base-`b` digits (the NonDecimalIntegerLiteral production of
the JS StringNumericLiteral grammar; no sign, no exponent). -/
def parseRadixDigits (b : Nat) (cs : List Char) : Option Frac :=
  if cs ≠ [] ∧ ∀ c ∈ cs, digitVal c < b then some ⟨(radixToNat b cs : Int), 1⟩
  else none

/-- Exact scaling of a fraction by `10^e` with `e` possibly negative. -/
def scalePow10 (x : Frac) (e : Int) : Frac :=
  if 0 ≤ e then ⟨x.num * (10 : Int) ^ e.toNat, x.den⟩
  else ⟨x.num, x.den * 10 ^ (-e).toNat⟩

/-- Body of an ExponentPart (what follows `e`/`E`): an optional sign and a
nonempty digit run consuming the whole remaining input. -/
def parseExponent (cs : List Char) : Option Int :=
  let sg := splitSign cs
  let dg := takeDigits sg.2
  if dg.1 ≠ [] ∧ dg.2 = [] then some (sg.1 * (digitsToNat dg.1 : Int)) else none

/-- A signed StrDecimalLiteral, the whole input consumed: optional sign, then
`Infinity` or `digits[.digits][exponent]` / `.digits[exponent]`.  An
`Infinity` numeral converts to an infinite value which — exactly like NaN —
makes `new Date(Number(ts) * 1000)` an invalid date and sends the event down
the same skip path, so the model folds it into `none` as well. -/
def parseSignedDecimal (cs : List Char) : Option Frac :=
  let sg := splitSign cs
  if sg.2 = "Infinity".toList then none
  else
    let ip := takeDigits sg.2
    let fp := match ip.2 with
      | '.' :: r => takeDigits r
      | _ => ([], ip.2)
    if ip.1.length + fp.1.length = 0 then none
    else
      let mant : Frac :=
        ⟨sg.1 * (digitsToNat ip.1 * 10 ^ fp.1.length + digitsToNat fp.1), 10 ^ fp.1.length⟩
      match fp.2 with
      | [] => some mant
      | c :: r => if c = 'e' ∨ c = 'E' then (parseExponent r).map (scalePow10 mant) else none

/-- Model of JS `Number(string)` (the StringNumericLiteral grammar):
whitespace-only converts to 0; a `0x`/`0o`/`0b` numeral is an unsigned
non-decimal integer; everything else must be a signed decimal numeral with
optional fractional part and exponent.  `none` models a conversion with no
finite result: NaN, and the `Infinity` forms (see `parseSignedDecimal`). -/
def strToNumber (s : String) : Option Frac :=
  let cs := ((s.toList.dropWhile Char.isWhitespace).reverse.dropWhile Char.isWhitespace).reverse
  match cs with
  | [] => some ⟨0, 1⟩
  | '0' :: c :: r =>
    if c = 'x' ∨ c = 'X' then parseRadixDigits 16 r
    else if c = 'o' ∨ c = 'O' then parseRadixDigits 8 r
    else if c = 'b' ∨ c = 'B' then parseRadixDigits 2 r
    else parseSignedDecimal cs
  | _ => parseSignedDecimal cs

/-- A `timestamp` field value: JSON numbers or strings both occur upstream. -/
inductive TsVal where
  | num (n : Int)
  | str (s : String)
deriving DecidableEq, Repr

/-- The fields of a transaction record that the dashboard reads.  `timestamp`
is epoch seconds (possibly string-encoded, possibly absent); the amounts are
optional decimal strings. -/
structure TransactionEvent where
  timestamp : Option TsVal
  amountSC : Option String
  amountBC : Option String
deriving DecidableEq, Repr

/-- JS truthiness of `tx.timestamp` (the `if (!tx.timestamp) return;` guard):
absent, the number 0 and the empty string are falsy. -/
def tsTruthy : Option TsVal → Bool
  | none => false
  | some (TsVal.num n) => n != 0
  | some (TsVal.str s) => s != ""

/-- `Number(tx.timestamp)` restricted to present values, as an exact finite
value (`none` = no finite result, see `strToNumber`). -/
def toNumberOfTs : Option TsVal → Option Frac
  | none => none
  | some (TsVal.num n) => some ⟨n, 1⟩
  | some (TsVal.str s) => strToNumber s

/-- Milliseconds of `new Date(Number(tx.timestamp) * 1000)`: the Date
constructor clips its argument with ToIntegerOrInfinity, truncating the exact
value `1000 * v` toward zero. -/
def msOfNumber (v : Frac) : Int := Int.tdiv (1000 * v.num) ((v.den : Int))

/-- `parseFloat(tx.amountSC || "0")`: absent or empty string falls back to
the string "0". -/
def amountNum (a : Option String) : Option Frac :=
  jsParseFloat (match a with
    | none => "0"
    | some s => if s = "" then "0" else s)

/-- IEEE addition on possibly-NaN numbers: NaN (`none`) is absorbing. -/
def addAmt : Option Frac → Option Frac → Option Frac
  | some a, some b => some (addFrac a b)
  | _, _ => none

/-- `Math.round(x * 100) / 100`, rounding a JS number to 2 decimals. -/
def jsRound2 (x : Frac) : Frac := ⟨jsRoundInt (mulFrac x ⟨100, 1⟩), 100⟩

/-! ### The aggregator (`generateChartData` / `getEmptyChartData`) -/

/-- The three chart tabs. -/
inductive TimePeriod where
  | week | month | year
deriving DecidableEq, Repr

/-- Bucket keys: `dm d m` models the zero-padded `DD/MM` label produced by
`dateFormat` (padding makes the label determined by, and determining, the
(day, month) pair), and `mon m` models the `en-US` short month name of
month `m` (the twelve names are pairwise distinct). -/
inductive BKey where
  | dm (d m : Int)
  | mon (m : Int)
deriving DecidableEq, Repr

/-- `DD/MM` key of the local date with day number `z`. -/
def dmKeyOfDay (z : Int) : BKey := BKey.dm (getDate z) (getMonth1 z)

/-- One entry of `groupedData`: accumulated revenue (NaN-able) and count. -/
structure RawBucket where
  revenue : Option Frac
  count : Nat
deriving DecidableEq, Repr

/-- The `groupedData` record, as an insertion-ordered association list
(ECMAScript string-keyed objects preserve insertion order for these keys). -/
abbrev GroupedData := List (BKey × RawBucket)

/-- Does `groupedData` already have an entry for key `k`
(the `if (!groupedData[key])` / `if (groupedData[key])` tests)? -/
def hasKey (g : GroupedData) (k : BKey) : Bool :=
  g.any fun p => p.1 == k

/-- Add an empty bucket for `k` unless one exists (skeleton loop body). -/
def insertKey (g : GroupedData) (k : BKey) : GroupedData :=
  if hasKey g k then g else g ++ [(k, ⟨some ⟨0, 1⟩, 0⟩)]

/-- Build the skeleton from the walked key sequence. -/
def buildSkel (ks : List BKey) : GroupedData := ks.foldl insertKey []

/-- `groupedData[key].revenue += amt; groupedData[key].count += 1` — keys are
unique in a JS object, and `List.map` touches exactly the entries whose key
is `k`. -/
def updateKey (g : GroupedData) (k : BKey) (amt : Option Frac) : GroupedData :=
  g.map fun p =>
    if p.1 = k then (p.1, ⟨addAmt p.2.revenue amt, p.2.count + 1⟩) else p

/-- Milliseconds per day. -/
def msPerDay : Int := 86400000

/-- Skeleton key walk for the daily periods: `i` runs from `w-1` down to `0`
and each step takes the `DD/MM` key of `now` shifted back `i` days
(`setDate(getDate() - i)` keeps the time of day, so only the day number
shifts). -/
def skelKeysDaily (w : Nat) (nowMs : Int) : List BKey :=
  (List.range w).map fun j => dmKeyOfDay (nowMs / msPerDay - ((w : Int) - 1) + Int.ofNat j)

/-- Day number reached from `now` by `setMonth(getMonth() - i)`: ECMAScript
MakeDay normalizes the month index by floor/mod 12 and then rolls an
out-of-range day-of-month forward linearly. -/
def setMonthDay (nowMs : Int) (i : Int) : Int :=
  daysFromCivil (getFullYear (nowMs / msPerDay) + (getMonth1 (nowMs / msPerDay) - 1 - i) / 12)
    ((getMonth1 (nowMs / msPerDay) - 1 - i) % 12 + 1)
    (getDate (nowMs / msPerDay))

/-- Month-name key produced for offset `i` of the year skeleton. -/
def monKeyAt (nowMs : Int) (i : Int) : BKey :=
  BKey.mon (getMonth1 (setMonthDay nowMs i))

/-- Skeleton key walk for the year period: `i` from 11 down to 0. -/
def skelKeysYear (nowMs : Int) : List BKey :=
  (List.range 12).map fun j => monKeyAt nowMs (11 - Int.ofNat j)

/-- One `transactions.forEach` step of the daily-period accumulation loop. -/
def accumDaily (w : Nat) (nowMs : Int) (g : GroupedData) (tx : TransactionEvent) :
    GroupedData :=
  if tsTruthy tx.timestamp then
    match toNumberOfTs tx.timestamp with
    | none => g
    | some v =>
      if 0 ≤ (nowMs - msOfNumber v) / msPerDay ∧ (nowMs - msOfNumber v) / msPerDay < (w : Int) then
        if hasKey g (dmKeyOfDay (msOfNumber v / msPerDay)) then
          updateKey g (dmKeyOfDay (msOfNumber v / msPerDay)) (amountNum tx.amountSC)
        else g
      else g
  else g

/-- One `transactions.forEach` step of the year-period accumulation loop. -/
def accumYear (nowMs : Int) (g : GroupedData) (tx : TransactionEvent) : GroupedData :=
  if tsTruthy tx.timestamp then
    match toNumberOfTs tx.timestamp with
    | none => g
    | some v =>
      if 0 ≤ (getFullYear (nowMs / msPerDay) - getFullYear (msOfNumber v / msPerDay)) * 12 +
            (getMonth1 (nowMs / msPerDay) - getMonth1 (msOfNumber v / msPerDay)) ∧
          (getFullYear (nowMs / msPerDay) - getFullYear (msOfNumber v / msPerDay)) * 12 +
            (getMonth1 (nowMs / msPerDay) - getMonth1 (msOfNumber v / msPerDay)) < 12 then
        if hasKey g (BKey.mon (getMonth1 (msOfNumber v / msPerDay))) then
          updateKey g (BKey.mon (getMonth1 (msOfNumber v / msPerDay))) (amountNum tx.amountSC)
        else g
      else g
  else g

/-- One point of the emitted chart series. -/
structure ChartDataPoint where
  date : BKey
  revenue : Option Frac
  transactions : Nat
  fees : Option Frac
deriving DecidableEq, Repr

/-- `Object.entries(groupedData).map(...)`: round revenue to 2 decimals and
derive fees as `Math.round(revenue * 0.01 * 100) / 100` from the raw
accumulated revenue. -/
def finalize (g : GroupedData) : List ChartDataPoint :=
  g.map fun p =>
    ⟨p.1, p.2.revenue.map jsRound2, p.2.count, p.2.revenue.map fun r => jsRound2 (mulFrac r ⟨1, 100⟩)⟩

/-- `getEmptyChartData`: the placeholder series pushed for an empty input,
one all-zero point per loop iteration (no key de-duplication). -/
def getEmptyChartData (p : TimePeriod) (nowMs : Int) : List ChartDataPoint :=
  match p with
  | TimePeriod.year =>
      (List.range 12).map fun j => ⟨monKeyAt nowMs (11 - Int.ofNat j), some ⟨0, 1⟩, 0, some ⟨0, 1⟩⟩
  | TimePeriod.week =>
      (List.range 7).map fun j => ⟨dmKeyOfDay (nowMs / msPerDay - 6 + Int.ofNat j), some ⟨0, 1⟩, 0, some ⟨0, 1⟩⟩
  | TimePeriod.month =>
      (List.range 30).map fun j => ⟨dmKeyOfDay (nowMs / msPerDay - 29 + Int.ofNat j), some ⟨0, 1⟩, 0, some ⟨0, 1⟩⟩

/-- `generateChartData`, with the wall-clock read (`new Date()`) made an
explicit parameter `nowMs`. -/
def generateChartData (txs : List TransactionEvent) (p : TimePeriod) (nowMs : Int) :
    List ChartDataPoint :=
  if txs.isEmpty then getEmptyChartData p nowMs
  else
    match p with
    | TimePeriod.year => finalize (txs.foldl (accumYear nowMs) (buildSkel (skelKeysYear nowMs)))
    | TimePeriod.week => finalize (txs.foldl (accumDaily 7 nowMs) (buildSkel (skelKeysDaily 7 nowMs)))
    | TimePeriod.month => finalize (txs.foldl (accumDaily 30 nowMs) (buildSkel (skelKeysDaily 30 nowMs)))

/-! ### Overview page stats (`DashboardOverview`) -/

/-- `transactions.length`. -/
def totalTransactions (txs : List TransactionEvent) : Nat := txs.length

/-- `transactions.reduce((sum, tx) => sum + parseFloat(tx.amountBC || "0"), 0)`. -/
def totalRevenue (txs : List TransactionEvent) : Option Frac :=
  txs.foldl (fun s tx => addAmt s (amountNum tx.amountBC)) (some ⟨0, 1⟩)

/-- `totalTransactions > 0 ? 100 : 0`. -/
def successRate (txs : List TransactionEvent) : Nat :=
  if 0 < totalTransactions txs then 100 else 0

/-- The overview page hard-codes zero failed transactions. -/
def failedTransactions (_ : List TransactionEvent) : Nat := 0

/-- The overview page hard-codes zero pending transactions. -/
def pendingTransactions (_ : List TransactionEvent) : Nat := 0

/-- The effect of one forEach step, reified: skip, or add `amt` at key `k`. -/
def applyAction (g : GroupedData) : Option (BKey × Option Frac) → GroupedData
  | none => g
  | some ka => if hasKey g ka.1 then updateKey g ka.1 ka.2 else g

/-- The daily loop body's decision for one event. -/
def dailyAction (w : Nat) (nowMs : Int) (tx : TransactionEvent) : Option (BKey × Option Frac) :=
  if tsTruthy tx.timestamp then
    match toNumberOfTs tx.timestamp with
    | none => none
    | some v =>
      if 0 ≤ (nowMs - msOfNumber v) / msPerDay ∧ (nowMs - msOfNumber v) / msPerDay < (w : Int) then
        some (dmKeyOfDay (msOfNumber v / msPerDay), amountNum tx.amountSC)
      else none
  else none

/-- The year loop body's decision for one event. -/
def yearAction (nowMs : Int) (tx : TransactionEvent) : Option (BKey × Option Frac) :=
  if tsTruthy tx.timestamp then
    match toNumberOfTs tx.timestamp with
    | none => none
    | some v =>
      if 0 ≤ (getFullYear (nowMs / msPerDay) - getFullYear (msOfNumber v / msPerDay)) * 12 +
            (getMonth1 (nowMs / msPerDay) - getMonth1 (msOfNumber v / msPerDay)) ∧
          (getFullYear (nowMs / msPerDay) - getFullYear (msOfNumber v / msPerDay)) * 12 +
            (getMonth1 (nowMs / msPerDay) - getMonth1 (msOfNumber v / msPerDay)) < 12 then
        some (BKey.mon (getMonth1 (msOfNumber v / msPerDay)), amountNum tx.amountSC)
      else none
  else none

/-- The `period === "week" ? 7 : period === "month" ? 30 : 12` bucket count. -/
def daysToShow : TimePeriod → Nat
  | TimePeriod.week => 7
  | TimePeriod.month => 30
  | TimePeriod.year => 12

/-- The skeleton key walk of each period. -/
def skelKeys (p : TimePeriod) (nowMs : Int) : List BKey :=
  match p with
  | TimePeriod.week => skelKeysDaily 7 nowMs
  | TimePeriod.month => skelKeysDaily 30 nowMs
  | TimePeriod.year => skelKeysYear nowMs

/-! ### Concrete reference instants and events used by the claim witnesses -/

/-- 2026-03-31T12:00:00 (day number 20543, a day-of-month-31 instant). -/
def nowMar31 : Int := 20543 * 86400000 + 43200000

/-- An event carrying no usable fields at all. -/
def junkEvent : TransactionEvent := ⟨none, none, none⟩

/-- Epoch seconds of 2026-03-31T11:00:00, one hour before `nowMar31`. -/
def tsMar31 : Int := 1774954800

/-! ### Theorems -/

theorem leapDay_cases (y : Int) : leapDay y = 0 ∨ leapDay y = 1 := by
  unfold leapDay; split_ifs <;> simp

theorem dayFromYear_succ (y : Int) :
    dayFromYear (y + 1) = dayFromYear y + 365 + leapDay y := by
  simp only [dayFromYear, leapDay]; split_ifs <;> omega

theorem dayFromYear_mono {y y' : Int} (h : y ≤ y') : dayFromYear y ≤ dayFromYear y' := by
  simp only [dayFromYear]; omega

theorem dayFromYear_gap {y y' : Int} (h : y < y') : dayFromYear y + 363 ≤ dayFromYear y' := by
  simp only [dayFromYear]; omega

theorem yearFromDay_mem (d : Int) :
    dayFromYear (yearFromDay d) ≤ d ∧ d < dayFromYear (yearFromDay d + 1) := by
  unfold yearFromDay
  have hqb : 3652425 * ((10000 * d + 12650) / 3652425) ≤ 10000 * d + 12650 ∧
      10000 * d + 12650 < 3652425 * ((10000 * d + 12650) / 3652425 + 1) := by
    omega
  generalize hq : (10000 * d + 12650) / 3652425 = q at hqb ⊢
  have e1 : (1969 : Int) + q + 1 = 1970 + q := by ring
  split_ifs with h
  · rw [e1]
    refine ⟨?_, h⟩
    simp only [dayFromYear] at h ⊢
    omega
  · refine ⟨le_of_not_lt h, ?_⟩
    simp only [dayFromYear] at h ⊢
    omega

theorem yearFromDay_unique {y d : Int} (h0 : dayFromYear y ≤ d)
    (h1 : d < dayFromYear (y + 1)) : yearFromDay d = y := by
  rcases lt_trichotomy (yearFromDay d) y with h | h | h
  · have h2 := dayFromYear_mono (show yearFromDay d + 1 ≤ y by omega)
    have h3 := (yearFromDay_mem d).2
    omega
  · exact h
  · have h2 := dayFromYear_mono (show y + 1 ≤ yearFromDay d by omega)
    have h3 := (yearFromDay_mem d).1
    omega

theorem dwy_bounds (z : Int) :
    0 ≤ z - dayFromYear (yearFromDay z) ∧
    z - dayFromYear (yearFromDay z) < 365 + leapDay (yearFromDay z) := by
  have h := yearFromDay_mem z
  have h2 := dayFromYear_succ (yearFromDay z)
  omega

/-- `monthFromDWY` agrees with the ECMAScript MonthFromTime range table. -/
theorem monthFromDWY_spec {w L m : Int} (hL : L = 0 ∨ L = 1) (hm1 : 1 ≤ m) (hm2 : m ≤ 12)
    (hlo : monthStart L m ≤ w) (hhi : w < monthStart L (m + 1)) :
    monthFromDWY w L = m := by
  unfold monthFromDWY monthStart at *
  split_ifs at * <;> omega

theorem monthFromDWY_bounds {w L : Int} (hL : L = 0 ∨ L = 1) (h0 : 0 ≤ w)
    (h1 : w < 365 + L) : 1 ≤ monthFromDWY w L ∧ monthFromDWY w L ≤ 12 := by
  unfold monthFromDWY
  split_ifs <;> omega

theorem monthStart_le {L m : Int} (hL : L = 0 ∨ L = 1) (hm1 : 1 ≤ m) (hm2 : m ≤ 12) :
    0 ≤ monthStart L m ∧ monthStart L m ≤ 334 + L := by
  unfold monthStart
  split_ifs <;> omega

theorem monthStart_leap_diff (L L' m : Int) (hL : L = 0 ∨ L = 1) (hL' : L' = 0 ∨ L' = 1) :
    monthStart L m - 1 ≤ monthStart L' m ∧ monthStart L' m ≤ monthStart L m + 1 := by
  unfold monthStart
  split_ifs <;> omega

theorem monthFromDWY_monthStart {L m d : Int} (hL : L = 0 ∨ L = 1)
    (hm1 : 1 ≤ m) (hm2 : m ≤ 12) (hd1 : 1 ≤ d) (hd2 : d ≤ 28) :
    monthFromDWY (monthStart L m + d - 1) L = m := by
  unfold monthFromDWY monthStart
  split_ifs <;> omega

theorem civil_roundtrip (z : Int) :
    daysFromCivil (getFullYear z) (getMonth1 z) (getDate z) = z := by
  unfold daysFromCivil getFullYear getMonth1 getDate dateFromDWY
  omega

theorem civil_triple_roundtrip {y m d : Int} (hm1 : 1 ≤ m) (hm2 : m ≤ 12)
    (hd1 : 1 ≤ d) (hd2 : d ≤ 28) :
    getFullYear (daysFromCivil y m d) = y ∧
    getMonth1 (daysFromCivil y m d) = m ∧
    getDate (daysFromCivil y m d) = d := by
  have hL := leapDay_cases y
  have hms := monthStart_le hL hm1 hm2
  have hy : yearFromDay (daysFromCivil y m d) = y := by
    apply yearFromDay_unique
    · unfold daysFromCivil
      omega
    · have h2 := dayFromYear_succ y
      unfold daysFromCivil
      omega
  have hw : daysFromCivil y m d - dayFromYear (yearFromDay (daysFromCivil y m d)) =
      monthStart (leapDay y) m + d - 1 := by
    rw [hy]; unfold daysFromCivil; ring
  refine ⟨hy, ?_, ?_⟩
  · unfold getMonth1
    rw [hw, hy]
    exact monthFromDWY_monthStart hL hm1 hm2 hd1 hd2
  · unfold getDate dateFromDWY
    rw [hw, hy, monthFromDWY_monthStart hL hm1 hm2 hd1 hd2]
    ring

/-- Two day numbers at most 30 days apart never share both day-of-month and
month; this is what makes the `DD/MM` bucket keys unambiguous inside a
30-day window. -/
theorem dm_inj30 {z z' : Int} (hm : getMonth1 z = getMonth1 z')
    (hd : getDate z = getDate z') (h1 : z < z') (h2 : z' ≤ z + 30) : False := by
  have r1 := civil_roundtrip z
  have r2 := civil_roundtrip z'
  rcases lt_trichotomy (getFullYear z) (getFullYear z') with h | h | h
  · have hg := dayFromYear_gap h
    have hmsd := monthStart_leap_diff (leapDay (getFullYear z)) (leapDay (getFullYear z'))
      (getMonth1 z) (leapDay_cases _) (leapDay_cases _)
    rw [← hm, ← hd] at r2
    unfold daysFromCivil at r1 r2
    omega
  · rw [← hm, ← hd, ← h] at r2
    omega
  · have hg := dayFromYear_gap h
    have hmsd := monthStart_leap_diff (leapDay (getFullYear z)) (leapDay (getFullYear z'))
      (getMonth1 z) (leapDay_cases _) (leapDay_cases _)
    rw [← hm, ← hd] at r2
    unfold daysFromCivil at r1 r2
    omega

/-! ### Structural lemmas about the grouped-data association list -/

theorem hasKey_true_iff {g : GroupedData} {k : BKey} :
    hasKey g k = true ↔ k ∈ g.map Prod.fst := by
  unfold hasKey
  simp [List.any_eq_true, List.mem_map]

theorem map_fst_updateKey (g : GroupedData) (k : BKey) (a : Option Frac) :
    (updateKey g k a).map Prod.fst = g.map Prod.fst := by
  unfold updateKey
  rw [List.map_map]
  apply List.map_congr_left
  intro p _
  by_cases h : p.1 = k <;> simp [h]

theorem hasKey_updateKey (g : GroupedData) (k : BKey) (a : Option Frac) (k' : BKey) :
    hasKey (updateKey g k a) k' = hasKey g k' := by
  by_cases hk : k' ∈ g.map Prod.fst
  · have h1 : hasKey (updateKey g k a) k' = true := by
      rw [hasKey_true_iff, map_fst_updateKey]; exact hk
    have h2 : hasKey g k' = true := hasKey_true_iff.mpr hk
    rw [h1, h2]
  · have h1 : hasKey (updateKey g k a) k' = false := by
      rw [← Bool.not_eq_true, hasKey_true_iff, map_fst_updateKey]; exact hk
    have h2 : hasKey g k' = false := by
      rw [← Bool.not_eq_true, hasKey_true_iff]; exact hk
    rw [h1, h2]

theorem addFrac_right_comm (r a b : Frac) :
    addFrac (addFrac r a) b = addFrac (addFrac r b) a := by
  unfold addFrac
  refine congrArg₂ Frac.mk ?_ ?_
  · push_cast
    ring
  · ring

theorem addAmt_right_comm (r a b : Option Frac) :
    addAmt (addAmt r a) b = addAmt (addAmt r b) a := by
  cases r <;> cases a <;> cases b <;> simp [addAmt, addFrac_right_comm]

theorem updateKey_comm (g : GroupedData) (k : BKey) (a : Option Frac) (k' : BKey) (a' : Option Frac) :
    updateKey (updateKey g k a) k' a' = updateKey (updateKey g k' a') k a := by
  unfold updateKey
  rw [List.map_map, List.map_map]
  apply List.map_congr_left
  intro p _
  rcases p with ⟨pk, pb⟩
  by_cases h1 : pk = k
  · subst h1
    by_cases h2 : pk = k'
    · subst h2
      simp [Function.comp, addAmt_right_comm]
    · simp [Function.comp, h2]
  · by_cases h2 : pk = k'
    · subst h2
      simp [Function.comp, h1]
    · simp [Function.comp, h1, h2]

theorem accumDaily_eq (w : Nat) (nowMs : Int) (g : GroupedData) (tx : TransactionEvent) :
    accumDaily w nowMs g tx = applyAction g (dailyAction w nowMs tx) := by
  unfold accumDaily dailyAction
  cases htr : tsTruthy tx.timestamp
  · simp [applyAction]
  · cases hn : toNumberOfTs tx.timestamp
    · simp [applyAction]
    · simp only
      split_ifs <;> simp_all [applyAction]

theorem accumYear_eq (nowMs : Int) (g : GroupedData) (tx : TransactionEvent) :
    accumYear nowMs g tx = applyAction g (yearAction nowMs tx) := by
  unfold accumYear yearAction
  cases htr : tsTruthy tx.timestamp
  · simp [applyAction]
  · cases hn : toNumberOfTs tx.timestamp
    · simp [applyAction]
    · simp only
      split_ifs <;> simp_all [applyAction]

theorem map_fst_applyAction (g : GroupedData) (a : Option (BKey × Option Frac)) :
    (applyAction g a).map Prod.fst = g.map Prod.fst := by
  cases a with
  | none => rfl
  | some ka =>
    simp only [applyAction]
    split_ifs <;> simp [map_fst_updateKey]

theorem applyAction_comm (g : GroupedData) (a b : Option (BKey × Option Frac)) :
    applyAction (applyAction g a) b = applyAction (applyAction g b) a := by
  cases a with
  | none => rfl
  | some ka =>
    cases b with
    | none => rfl
    | some kb =>
      simp only [applyAction]
      by_cases h1 : hasKey g ka.1 <;> by_cases h2 : hasKey g kb.1 <;>
        simp [h1, h2, hasKey_updateKey, updateKey_comm]

theorem foldl_applyAction_perm {α : Type} (act : α → Option (BKey × Option Frac))
    {l l' : List α} (h : List.Perm l l') (g : GroupedData) :
    l.foldl (fun g tx => applyAction g (act tx)) g =
      l'.foldl (fun g tx => applyAction g (act tx)) g := by
  induction h generalizing g with
  | nil => rfl
  | cons x _ ih => simp only [List.foldl_cons]; exact ih _
  | swap x y l => simp only [List.foldl_cons]; rw [applyAction_comm]
  | trans _ _ ih1 ih2 => rw [ih1, ih2]

theorem monthStart_monthFromDWY_le {w L : Int} (hL : L = 0 ∨ L = 1) (h0 : 0 ≤ w) :
    monthStart L (monthFromDWY w L) ≤ w := by
  unfold monthStart monthFromDWY
  split_ifs <;> omega

theorem getDate_pos (z : Int) : 1 ≤ getDate z := by
  unfold getDate dateFromDWY
  have hb := dwy_bounds z
  have h := monthStart_monthFromDWY_le (leapDay_cases (yearFromDay z)) hb.1
  omega

theorem hasKey_append (g g' : GroupedData) (k : BKey) :
    hasKey (g ++ g') k = (hasKey g k || hasKey g' k) := by
  unfold hasKey
  exact List.any_append

theorem hasKey_insertKey_iff {g : GroupedData} {k k' : BKey} :
    hasKey (insertKey g k) k' = true ↔ (hasKey g k' = true ∨ k' = k) := by
  unfold insertKey
  split_ifs with h
  · constructor
    · exact fun h2 => Or.inl h2
    · rintro (h2 | rfl)
      · exact h2
      · exact h
  · rw [hasKey_append]
    simp only [hasKey, Bool.or_eq_true, List.any_cons, List.any_nil, Bool.or_false, beq_iff_eq]
    constructor
    · rintro (h2 | h2)
      · exact Or.inl h2
      · exact Or.inr h2.symm
    · rintro (h2 | rfl)
      · exact Or.inl h2
      · exact Or.inr rfl

theorem hasKey_foldl_insert (ks : List BKey) (acc : GroupedData) (k : BKey) :
    hasKey (ks.foldl insertKey acc) k = true ↔ hasKey acc k = true ∨ k ∈ ks := by
  induction ks generalizing acc with
  | nil => simp
  | cons a t ih =>
    simp only [List.foldl_cons, ih, hasKey_insertKey_iff, List.mem_cons]
    tauto

theorem hasKey_buildSkel (ks : List BKey) (k : BKey) :
    hasKey (buildSkel ks) k = true ↔ k ∈ ks := by
  unfold buildSkel
  rw [hasKey_foldl_insert]
  simp [hasKey]

theorem foldl_insert_nodup (ks : List BKey) (acc : GroupedData)
    (hdisj : ∀ k ∈ ks, hasKey acc k = false) (hnd : ks.Nodup) :
    ks.foldl insertKey acc = acc ++ ks.map (fun k => (k, ⟨some ⟨0, 1⟩, 0⟩)) := by
  induction ks generalizing acc with
  | nil => simp
  | cons a t ih =>
    have ha : hasKey acc a = false := hdisj a (by simp)
    have hstep : insertKey acc a = acc ++ [(a, ⟨some ⟨0, 1⟩, 0⟩)] := by
      unfold insertKey
      rw [ha]
      simp
    simp only [List.foldl_cons, hstep]
    rw [ih]
    · simp
    · intro k hk
      have h1 : hasKey acc k = false := hdisj k (by simp [hk])
      have h2 : k ≠ a := by
        intro e
        exact (List.nodup_cons.mp hnd).1 (e ▸ hk)
      have h3 : hasKey [(a, (⟨some ⟨0, 1⟩, 0⟩ : RawBucket))] k = false := by
        simp only [hasKey, List.any_cons, List.any_nil, Bool.or_false]
        rw [beq_eq_false_iff_ne]
        exact fun e => h2 e.symm
      rw [hasKey_append, h1, h3]
      rfl
    · exact (List.nodup_cons.mp hnd).2

theorem buildSkel_eq_of_nodup {ks : List BKey} (hnd : ks.Nodup) :
    buildSkel ks = ks.map (fun k => (k, ⟨some ⟨0, 1⟩, 0⟩)) := by
  unfold buildSkel
  rw [foldl_insert_nodup ks [] (fun k _ => rfl) hnd]
  simp

theorem dmKeyOfDay_inj30 {z z' : Int} (hne : z ≠ z') (h1 : z ≤ z' + 30) (h2 : z' ≤ z + 30) :
    dmKeyOfDay z ≠ dmKeyOfDay z' := by
  intro he
  unfold dmKeyOfDay at he
  have hd : getDate z = getDate z' := by
    injection he
  have hm : getMonth1 z = getMonth1 z' := by
    injection he with e1 e2
  rcases lt_or_gt_of_ne hne with h | h
  · exact dm_inj30 hm hd h (by omega)
  · exact dm_inj30 hm.symm hd.symm h (by omega)

theorem skelKeysDaily_nodup (w : Nat) (hw : w ≤ 31) (nowMs : Int) :
    (skelKeysDaily w nowMs).Nodup := by
  unfold skelKeysDaily
  refine List.Nodup.map_on ?_ (List.nodup_range w)
  intro x hx y hy he
  rw [List.mem_range] at hx hy
  by_contra hne
  simp only [Int.ofNat_eq_natCast] at he
  have hxy : (x : Int) ≠ (y : Int) := by
    exact_mod_cast hne
  exact dmKeyOfDay_inj30 (by omega) (by omega) (by omega) he

theorem getDate_le31 (z : Int) : getDate z ≤ 31 := by
  have hb := dwy_bounds z
  have hL := leapDay_cases (yearFromDay z)
  have hmb := monthFromDWY_bounds hL hb.1 hb.2
  have h2 : monthFromDWY (z - dayFromYear (yearFromDay z)) (leapDay (yearFromDay z)) ≤ 12 := hmb.2
  unfold getDate dateFromDWY
  -- w < monthStart L (m + 1) would give the bound; use the explicit formulas
  unfold getMonth1 at h2
  revert h2 hmb
  generalize hww : z - dayFromYear (yearFromDay z) = w at hb ⊢
  generalize hLL : leapDay (yearFromDay z) = L at hb hL ⊢
  intro hmb h2
  unfold monthStart monthFromDWY at *
  split_ifs at * <;> omega

theorem monKeyAt_of_le28 {nowMs : Int} (h : getDate (nowMs / msPerDay) ≤ 28) (i : Int) :
    monKeyAt nowMs i =
      BKey.mon ((getMonth1 (nowMs / msPerDay) - 1 - i) % 12 + 1) := by
  unfold monKeyAt setMonthDay
  congr 1
  exact (civil_triple_roundtrip
    (by have := Int.emod_nonneg (getMonth1 (nowMs / msPerDay) - 1 - i) (by norm_num : (12:Int) ≠ 0); omega)
    (by have := Int.emod_lt_of_pos (getMonth1 (nowMs / msPerDay) - 1 - i) (by norm_num : (0:Int) < 12); omega)
    (getDate_pos (nowMs / msPerDay)) h).2.1

theorem skelKeysYear_nodup {nowMs : Int} (h : getDate (nowMs / msPerDay) ≤ 28) :
    (skelKeysYear nowMs).Nodup := by
  unfold skelKeysYear
  refine List.Nodup.map_on ?_ (List.nodup_range 12)
  intro x hx y hy he
  rw [List.mem_range] at hx hy
  rw [monKeyAt_of_le28 h, monKeyAt_of_le28 h] at he
  have he2 : (getMonth1 (nowMs / msPerDay) - 1 - (11 - Int.ofNat x)) % 12 + 1 =
      (getMonth1 (nowMs / msPerDay) - 1 - (11 - Int.ofNat y)) % 12 + 1 := by
    injection he
  simp only [Int.ofNat_eq_natCast] at he2
  have hxy : (x : Int) = (y : Int) := by omega
  exact_mod_cast hxy

theorem accumDaily_funext (w : Nat) (nowMs : Int) :
    accumDaily w nowMs = fun g tx => applyAction g (dailyAction w nowMs tx) :=
  funext fun g => funext fun tx => accumDaily_eq w nowMs g tx

theorem accumYear_funext (nowMs : Int) :
    accumYear nowMs = fun g tx => applyAction g (yearAction nowMs tx) :=
  funext fun g => funext fun tx => accumYear_eq nowMs g tx

theorem map_fst_foldl_apply {α : Type} (act : α → Option (BKey × Option Frac))
    (txs : List α) (g : GroupedData) :
    (txs.foldl (fun g tx => applyAction g (act tx)) g).map Prod.fst = g.map Prod.fst := by
  induction txs generalizing g with
  | nil => rfl
  | cons a t ih =>
    simp only [List.foldl_cons]
    rw [ih, map_fst_applyAction]

theorem map_date_finalize (g : GroupedData) :
    (finalize g).map (fun b => b.date) = g.map Prod.fst := by
  unfold finalize
  rw [List.map_map]
  apply List.map_congr_left
  intro p _
  rfl

theorem length_finalize (g : GroupedData) : (finalize g).length = g.length := by
  simp [finalize]

theorem map_fst_skelmap (ks : List BKey) :
    (ks.map (fun k => (k, (⟨some ⟨0, 1⟩, 0⟩ : RawBucket)))).map Prod.fst = ks := by
  induction ks with
  | nil => rfl
  | cons a t ih => simp only [List.map_cons, ih]

/-- For a nonempty event list the emitted labels are exactly the (first-seen
de-duplicated) skeleton keys, whatever the events contain. -/
theorem gen_labels {txs : List TransactionEvent} (p : TimePeriod) (nowMs : Int)
    (h : txs ≠ []) :
    (generateChartData txs p nowMs).map (fun b => b.date) =
      (buildSkel (skelKeys p nowMs)).map Prod.fst := by
  unfold generateChartData
  rw [if_neg (by simp [h])]
  cases p
  · show (finalize (txs.foldl (accumDaily 7 nowMs) (buildSkel (skelKeysDaily 7 nowMs)))).map
        (fun b => b.date) = (buildSkel (skelKeysDaily 7 nowMs)).map Prod.fst
    rw [map_date_finalize, accumDaily_funext 7 nowMs, map_fst_foldl_apply]
  · show (finalize (txs.foldl (accumDaily 30 nowMs) (buildSkel (skelKeysDaily 30 nowMs)))).map
        (fun b => b.date) = (buildSkel (skelKeysDaily 30 nowMs)).map Prod.fst
    rw [map_date_finalize, accumDaily_funext 30 nowMs, map_fst_foldl_apply]
  · show (finalize (txs.foldl (accumYear nowMs) (buildSkel (skelKeysYear nowMs)))).map
        (fun b => b.date) = (buildSkel (skelKeysYear nowMs)).map Prod.fst
    rw [map_date_finalize, accumYear_funext nowMs, map_fst_foldl_apply]

theorem gen_labels_week {txs : List TransactionEvent} (nowMs : Int) (h : txs ≠ []) :
    (generateChartData txs TimePeriod.week nowMs).map (fun b => b.date) =
      skelKeysDaily 7 nowMs := by
  rw [gen_labels TimePeriod.week nowMs h]
  show (buildSkel (skelKeysDaily 7 nowMs)).map Prod.fst = skelKeysDaily 7 nowMs
  rw [buildSkel_eq_of_nodup (skelKeysDaily_nodup 7 (by norm_num) nowMs), map_fst_skelmap]

theorem gen_labels_month {txs : List TransactionEvent} (nowMs : Int) (h : txs ≠ []) :
    (generateChartData txs TimePeriod.month nowMs).map (fun b => b.date) =
      skelKeysDaily 30 nowMs := by
  rw [gen_labels TimePeriod.month nowMs h]
  show (buildSkel (skelKeysDaily 30 nowMs)).map Prod.fst = skelKeysDaily 30 nowMs
  rw [buildSkel_eq_of_nodup (skelKeysDaily_nodup 30 (by norm_num) nowMs), map_fst_skelmap]

theorem gen_labels_year {txs : List TransactionEvent} (nowMs : Int) (h : txs ≠ [])
    (h28 : getDate (nowMs / msPerDay) ≤ 28) :
    (generateChartData txs TimePeriod.year nowMs).map (fun b => b.date) =
      skelKeysYear nowMs := by
  rw [gen_labels TimePeriod.year nowMs h]
  show (buildSkel (skelKeysYear nowMs)).map Prod.fst = skelKeysYear nowMs
  rw [buildSkel_eq_of_nodup (skelKeysYear_nodup h28), map_fst_skelmap]

theorem getEmpty_labels_week (nowMs : Int) :
    (getEmptyChartData TimePeriod.week nowMs).map (fun b => b.date) =
      skelKeysDaily 7 nowMs := by
  unfold getEmptyChartData skelKeysDaily
  rw [List.map_map]
  apply List.map_congr_left
  intro j _
  simp only [Function.comp]
  congr 1

theorem getEmpty_labels_month (nowMs : Int) :
    (getEmptyChartData TimePeriod.month nowMs).map (fun b => b.date) =
      skelKeysDaily 30 nowMs := by
  unfold getEmptyChartData skelKeysDaily
  rw [List.map_map]
  apply List.map_congr_left
  intro j _
  simp only [Function.comp]
  congr 1

theorem getEmpty_labels_year (nowMs : Int) :
    (getEmptyChartData TimePeriod.year nowMs).map (fun b => b.date) =
      skelKeysYear nowMs := by
  unfold getEmptyChartData skelKeysYear
  rw [List.map_map]
  apply List.map_congr_left
  intro j _
  rfl

theorem length_getEmpty (p : TimePeriod) (nowMs : Int) :
    (getEmptyChartData p nowMs).length = daysToShow p := by
  cases p <;> simp [getEmptyChartData, daysToShow]

theorem updateKey_not_hasKey (g : GroupedData) (k : BKey) (a : Option Frac)
    (h : hasKey g k = false) : updateKey g k a = g := by
  induction g with
  | nil => rfl
  | cons p t ih =>
    have h2 : (p.1 == k) = false ∧ hasKey t k = false := by
      simpa [hasKey] using h
    have h3 : ¬ p.1 = k := by
      intro e
      rw [e] at h2
      simp at h2
    simp only [updateKey, List.map_cons, if_neg h3]
    have ih2 := ih h2.2
    unfold updateKey at ih2
    rw [ih2]

theorem updateKey_cons_head (k : BKey) (b : RawBucket) (rest : GroupedData) (a : Option Frac)
    (hrest : hasKey rest k = false) :
    updateKey ((k, b) :: rest) k a =
      List.modifyHead (fun p => (p.1, ⟨addAmt p.2.revenue a, p.2.count + 1⟩)) ((k, b) :: rest) := by
  simp only [updateKey, List.map_cons, if_pos rfl, List.modifyHead]
  have h2 := updateKey_not_hasKey rest k a hrest
  unfold updateKey at h2
  rw [h2]
  simp

theorem map_bump_not_hasKey (g : GroupedData) (k : BKey)
    (h : hasKey g k = false) :
    g.map (fun p => if p.1 = k then (p.1, (⟨p.2.revenue, p.2.count + 1⟩ : RawBucket)) else p) = g := by
  induction g with
  | nil => rfl
  | cons p t ih =>
    have h2 : (p.1 == k) = false ∧ hasKey t k = false := by
      simpa [hasKey] using h
    have h3 : ¬ p.1 = k := by
      intro e
      rw [e] at h2
      simp at h2
    simp only [List.map_cons, if_neg h3]
    rw [ih h2.2]

theorem foldl_congr_mid {α : Type} (f : GroupedData → α → GroupedData)
    (pre post : List α) (e e' : α) (he : ∀ g, f g e = f g e') (g0 : GroupedData) :
    (pre ++ e :: post).foldl f g0 = (pre ++ e' :: post).foldl f g0 := by
  induction pre generalizing g0 with
  | nil => simp only [List.nil_append, List.foldl_cons, he g0]
  | cons a t ih =>
    simp only [List.cons_append, List.foldl_cons]
    exact ih _

theorem strToNumber_empty : strToNumber "" = some ⟨0, 1⟩ := rfl

theorem msOfNumber_int (n : Int) : msOfNumber ⟨n, 1⟩ = 1000 * n := by
  unfold msOfNumber
  simp [Int.tdiv_one]

theorem strToNumber_ne_empty {s : String} {v : Frac} (hs : strToNumber s = some v)
    (hv : v.num ≠ 0) : s ≠ "" := by
  intro e
  rw [e, strToNumber_empty] at hs
  exact hv (congrArg Frac.num (Option.some.inj hs)).symm

theorem dailyAction_str_num (s : String) (n : Int) (hs : strToNumber s = some ⟨n, 1⟩)
    (hn : n ≠ 0) (a b : Option String) (w : Nat) (nowMs : Int) :
    dailyAction w nowMs ⟨some (TsVal.str s), a, b⟩ =
      dailyAction w nowMs ⟨some (TsVal.num n), a, b⟩ := by
  have hse : s ≠ "" := strToNumber_ne_empty hs hn
  unfold dailyAction toNumberOfTs tsTruthy
  simp only [hs]
  rw [bne_iff_ne.mpr hse, bne_iff_ne.mpr hn]

theorem yearAction_str_num (s : String) (n : Int) (hs : strToNumber s = some ⟨n, 1⟩)
    (hn : n ≠ 0) (a b : Option String) (nowMs : Int) :
    yearAction nowMs ⟨some (TsVal.str s), a, b⟩ =
      yearAction nowMs ⟨some (TsVal.num n), a, b⟩ := by
  have hse : s ≠ "" := strToNumber_ne_empty hs hn
  unfold yearAction toNumberOfTs tsTruthy
  simp only [hs]
  rw [bne_iff_ne.mpr hse, bne_iff_ne.mpr hn]

theorem gen_length_week (txs : List TransactionEvent) (nowMs : Int) :
    (generateChartData txs TimePeriod.week nowMs).length = 7 := by
  by_cases h : txs = []
  · subst h
    exact length_getEmpty TimePeriod.week nowMs
  · have h2 := congrArg List.length (gen_labels_week nowMs h)
    simpa [skelKeysDaily] using h2

theorem gen_length_month (txs : List TransactionEvent) (nowMs : Int) :
    (generateChartData txs TimePeriod.month nowMs).length = 30 := by
  by_cases h : txs = []
  · subst h
    exact length_getEmpty TimePeriod.month nowMs
  · have h2 := congrArg List.length (gen_labels_month nowMs h)
    simpa [skelKeysDaily] using h2

theorem gen_length_year (txs : List TransactionEvent) (nowMs : Int)
    (h28 : getDate (nowMs / msPerDay) ≤ 28) :
    (generateChartData txs TimePeriod.year nowMs).length = 12 := by
  by_cases h : txs = []
  · subst h
    exact length_getEmpty TimePeriod.year nowMs
  · have h2 := congrArg List.length (gen_labels_year nowMs h h28)
    simpa [skelKeysYear] using h2

/-! ### Value semantics of the fraction layer -/

theorem Frac.toRat_mk (n : Int) (d : Nat) : Frac.toRat ⟨n, d⟩ = (n : ℚ) / d := rfl

theorem addFrac_toRat (a b : Frac) (ha : a.den ≠ 0) (hb : b.den ≠ 0) :
    (addFrac a b).toRat = a.toRat + b.toRat := by
  unfold addFrac Frac.toRat
  have ha' : ((a.den : ℚ)) ≠ 0 := Nat.cast_ne_zero.mpr ha
  have hb' : ((b.den : ℚ)) ≠ 0 := Nat.cast_ne_zero.mpr hb
  field_simp

theorem mulFrac_toRat (a b : Frac) : (mulFrac a b).toRat = a.toRat * b.toRat := by
  unfold mulFrac Frac.toRat
  rw [Int.cast_mul, Nat.cast_mul, div_mul_div_comm]

/-- `jsRoundInt` is JS `Math.round` on the value: floor of `x + 1/2`,
i.e. Mathlib's `round`. -/
theorem jsRoundInt_eq_round (x : Frac) (hd : x.den ≠ 0) :
    jsRoundInt x = round x.toRat := by
  unfold jsRoundInt Frac.toRat
  rw [round_eq]
  have hq : ((x.den : ℚ)) ≠ 0 := Nat.cast_ne_zero.mpr hd
  have h1 : (x.num : ℚ) / x.den + 1 / 2 =
      (((2 * x.num + (x.den : Int) : Int) : ℚ)) / (((2 * x.den : Nat) : ℕ) : ℚ) := by
    push_cast
    field_simp
    ring
  rw [h1, Rat.floor_intCast_div_natCast]
  push_cast
  rfl

theorem jsRound2_toRat (x : Frac) (hd : x.den ≠ 0) :
    (jsRound2 x).toRat = ((round (x.toRat * 100) : Int) : ℚ) / 100 := by
  unfold jsRound2
  rw [Frac.toRat_mk]
  rw [jsRoundInt_eq_round _ (by simp [mulFrac, hd])]
  rw [mulFrac_toRat]
  norm_num [Frac.toRat_mk]

/-! ### Claim theorems -/

/-- C9: the overview page's stats are `successRate = 100` exactly when the
transaction list is nonempty (else 0), and `failedTransactions` and
`pendingTransactions` are the constant 0, independent of every field of the
transactions. -/
theorem c9_overview_stats (txs : List TransactionEvent) :
    successRate txs = (if txs = [] then 0 else 100) ∧
    failedTransactions txs = 0 ∧ pendingTransactions txs = 0 := by
  refine ⟨?_, rfl, rfl⟩
  unfold successRate totalTransactions
  cases txs <;> simp

/-- C10: an event whose `timestamp` is the number 0 or the empty string is
falsy in JS, so the `if (!tx.timestamp) return` guard drops it before any
window check, in both the daily and the yearly accumulation loops. -/
theorem c10_falsy_timestamp (t : Option TsVal)
    (ht : t = some (TsVal.num 0) ∨ t = some (TsVal.str ""))
    (a b : Option String) (g : GroupedData) (w : Nat) (nowMs : Int) :
    accumDaily w nowMs g ⟨t, a, b⟩ = g ∧ accumYear nowMs g ⟨t, a, b⟩ = g := by
  rcases ht with rfl | rfl <;> exact ⟨rfl, rfl⟩

/-- C10 witness: at a reference instant three days after the epoch, second 0
would satisfy the week-window check (`dayDiff = 3 < 7`), yet the event is
dropped from the skeleton. -/
theorem c10_witness :
    accumDaily 7 (3 * 86400000) (buildSkel (skelKeysDaily 7 (3 * 86400000)))
        ⟨some (TsVal.num 0), some "5", none⟩ =
      buildSkel (skelKeysDaily 7 (3 * 86400000)) ∧
    accumYear (3 * 86400000) (buildSkel (skelKeysYear (3 * 86400000)))
        ⟨some (TsVal.num 0), some "5", none⟩ =
      buildSkel (skelKeysYear (3 * 86400000)) ∧
    (0 ≤ (3 * 86400000 - 1000 * (0 : Int)) / msPerDay ∧
      (3 * 86400000 - 1000 * (0 : Int)) / msPerDay < 7) := by
  refine ⟨?_, ?_, by decide⟩
  · exact (c10_falsy_timestamp _ (Or.inl rfl) (some "5") none _ 7 (3 * 86400000)).1
  · exact (c10_falsy_timestamp _ (Or.inl rfl) (some "5") none _ 7 (3 * 86400000)).2

/-- C1 counterexample: with a (single, skipped) event in the list and `now`
on 31 March 2026, the year series has only 7 buckets: the month-name keys of
the `setMonth` walk collapse (`Feb 31` rolls to March, `Apr 31` to May, ...),
so the fixed cardinality 12 fails for a nonempty event list when `now` is on
day 29-31 of a month. -/
theorem c1_counterexample :
    (generateChartData [junkEvent] TimePeriod.year nowMar31).length = 7 ∧
    (generateChartData [junkEvent] TimePeriod.year nowMar31).length ≠ 12 := by
  constructor <;> decide

/-- C1 amended: the week and month series always have 7 and 30 buckets; the
year series has 12 buckets whenever the event list is empty, and whenever
`now`'s day-of-month is at most 28 (so the `setMonth` walk cannot overflow a
month boundary); with a nonempty list and `now` on day 29-31 it can collapse
below 12 (see the counterexample). -/
theorem c1_fixed_cardinality (txs : List TransactionEvent) (nowMs : Int) :
    (generateChartData txs TimePeriod.week nowMs).length = 7 ∧
    (generateChartData txs TimePeriod.month nowMs).length = 30 ∧
    (txs = [] → (generateChartData txs TimePeriod.year nowMs).length = 12) ∧
    (getDate (nowMs / msPerDay) ≤ 28 →
      (generateChartData txs TimePeriod.year nowMs).length = 12) := by
  refine ⟨gen_length_week txs nowMs, gen_length_month txs nowMs, ?_, ?_⟩
  · intro h
    subst h
    exact length_getEmpty TimePeriod.year nowMs
  · intro h28
    exact gen_length_year txs nowMs h28

/-- C1 witness: the amended cardinality at the epoch instant (day-of-month 1)
with an empty list. -/
theorem c1_witness :
    (generateChartData [] TimePeriod.week 0).length = 7 ∧
    (generateChartData [] TimePeriod.month 0).length = 30 ∧
    (generateChartData [] TimePeriod.year 0).length = 12 ∧
    (generateChartData [junkEvent] TimePeriod.year 0).length = 12 := by
  have h1 := c1_fixed_cardinality [] 0
  have h2 := c1_fixed_cardinality [junkEvent] 0
  exact ⟨h1.1, h1.2.1, h1.2.2.1 rfl, h2.2.2.2 (by decide)⟩

/-- C3 counterexample: a single event of amount `0.497` lands in the newest
week bucket; the emitted revenue is the rounded `0.50` but the emitted fees
are `Math.round(0.497 * 0.01 * 100)/100 = 0`, whereas deriving fees from the
emitted (rounded) revenue would give `Math.round(0.50 * 0.01 * 100)/100 =
0.01`.  Fees therefore come from the raw accumulated sum, not the rounded
revenue, refuting the claim. -/
theorem c3_counterexample :
    (generateChartData [⟨some (TsVal.num tsMar31), some "0.497", none⟩]
        TimePeriod.week nowMar31)[6]? =
      some ⟨BKey.dm 31 3, some ⟨50, 100⟩, 1, some ⟨0, 100⟩⟩ ∧
    Frac.toRat ⟨50, 100⟩ = 1 / 2 ∧
    Frac.toRat ⟨0, 100⟩ = 0 ∧
    ((round ((1 / 2 : ℚ) * (1 / 100) * 100) : Int) : ℚ) / 100 = 1 / 100 ∧
    (0 : ℚ) ≠ 1 / 100 := by
  refine ⟨by decide, by norm_num [Frac.toRat_mk], by norm_num [Frac.toRat_mk], ?_, by norm_num⟩
  norm_num
  rw [round_eq]
  norm_num

/-- C3 amended: for every populated bucket the emitted fees equal 1% of the
raw accumulated revenue rounded to 2 decimals — `round(rawRevenue)/100` —
rather than 1% of the already-rounded revenue; the emitted revenue is the raw
sum rounded to 2 decimals. -/
theorem c3_fees_from_raw (g : GroupedData)
    (hden : ∀ p ∈ g, ∀ r, p.2.revenue = some r → r.den ≠ 0) :
    (finalize g).map (fun b => b.fees.map Frac.toRat) =
      g.map (fun p => p.2.revenue.map fun r => ((round r.toRat : Int) : ℚ) / 100) ∧
    (finalize g).map (fun b => b.revenue.map Frac.toRat) =
      g.map (fun p => p.2.revenue.map fun r => ((round (r.toRat * 100) : Int) : ℚ) / 100) := by
  constructor
  · unfold finalize
    rw [List.map_map]
    apply List.map_congr_left
    intro p hp
    simp only [Function.comp]
    cases hr : p.2.revenue with
    | none => rfl
    | some r =>
      simp only [Option.map_some']
      congr 1
      have hd : r.den ≠ 0 := hden p hp r hr
      rw [jsRound2_toRat _ (by simp [mulFrac, hd]), mulFrac_toRat]
      rw [show Frac.toRat ⟨1, 100⟩ = 1 / 100 from by norm_num [Frac.toRat_mk]]
      rw [show r.toRat * (1 / 100) * 100 = r.toRat from by ring]
  · unfold finalize
    rw [List.map_map]
    apply List.map_congr_left
    intro p hp
    simp only [Function.comp]
    cases hr : p.2.revenue with
    | none => rfl
    | some r =>
      simp only [Option.map_some']
      congr 1
      exact jsRound2_toRat _ (hden p hp r hr)

/-- C3 witness: the fee/revenue value identities on a one-bucket grouped
record holding the raw sum 0.497. -/
theorem c3_witness :
    (finalize [(BKey.dm 31 3, ⟨some ⟨497, 1000⟩, 1⟩)]).map (fun b => b.fees.map Frac.toRat) =
      [(some ⟨497, 1000⟩ : Option Frac).map fun r => ((round r.toRat : Int) : ℚ) / 100] ∧
    (finalize [(BKey.dm 31 3, ⟨some ⟨497, 1000⟩, 1⟩)]).map (fun b => b.revenue.map Frac.toRat) =
      [(some ⟨497, 1000⟩ : Option Frac).map fun r => ((round (r.toRat * 100) : Int) : ℚ) / 100] := by
  have h := c3_fees_from_raw [(BKey.dm 31 3, ⟨some ⟨497, 1000⟩, 1⟩)]
    (by
      intro p hp r hr
      simp only [List.mem_singleton] at hp
      subst hp
      have h2 := Option.some.inj hr
      subst h2
      decide)
  simpa using h

theorem addAmt_zero (r : Option Frac) : addAmt r (some ⟨0, 1⟩) = r := by
  cases r with
  | none => rfl
  | some x => simp [addAmt, addFrac]

theorem addAmt_none_right (r : Option Frac) : addAmt r none = none := by
  cases r <;> rfl

theorem dailyAction_num {n : Int} (hn : n ≠ 0) (w : Nat) (nowMs : Int)
    (h0 : 0 ≤ (nowMs - 1000 * n) / msPerDay)
    (h1 : (nowMs - 1000 * n) / msPerDay < (w : Int)) (a b : Option String) :
    dailyAction w nowMs ⟨some (TsVal.num n), a, b⟩ =
      some (dmKeyOfDay (1000 * n / msPerDay), amountNum a) := by
  simp [dailyAction, toNumberOfTs, tsTruthy, msOfNumber_int, hn, h0, h1]

theorem yearAction_num {n : Int} (hn : n ≠ 0) (nowMs : Int)
    (h0 : 0 ≤ (getFullYear (nowMs / msPerDay) - getFullYear (1000 * n / msPerDay)) * 12 +
      (getMonth1 (nowMs / msPerDay) - getMonth1 (1000 * n / msPerDay)))
    (h1 : (getFullYear (nowMs / msPerDay) - getFullYear (1000 * n / msPerDay)) * 12 +
      (getMonth1 (nowMs / msPerDay) - getMonth1 (1000 * n / msPerDay)) < 12)
    (a b : Option String) :
    yearAction nowMs ⟨some (TsVal.num n), a, b⟩ =
      some (BKey.mon (getMonth1 (1000 * n / msPerDay)), amountNum a) := by
  simp [yearAction, toNumberOfTs, tsTruthy, msOfNumber_int, hn, h0, h1]

/-- C2 amended: an event with `amountSC` absent or empty parses to the JS
number 0, so inside the window it increments the matched bucket's
transaction count and leaves its revenue unchanged — in the daily (week and
month) accumulation loop and in the year period's separate accumulation loop
alike; a skeleton bucket fed only such events finalizes to zero revenue and
zero fees with a positive count.  A nonempty unparseable `amountSC` instead
makes `parseFloat` return NaN, which poisons the matched bucket's accumulated
revenue (and hence its emitted revenue and fees) in both loops — see also the
counterexample. -/
theorem c2_absent_amount (nowMs : Int) (g : GroupedData)
    (t : Option TsVal) (aSC aBC : Option String) (n : Int)
    (hts : t = some (TsVal.num n)) (hn : n ≠ 0)
    (hsc : aSC = none ∨ aSC = some "")
    (sN : String) (hsN : sN ≠ "") (hbad : jsParseFloat sN = none) :
    amountNum aSC = some ⟨0, 1⟩ ∧
    (∀ w : Nat, 0 ≤ (nowMs - 1000 * n) / msPerDay →
      (nowMs - 1000 * n) / msPerDay < (w : Int) →
      accumDaily w nowMs g ⟨t, aSC, aBC⟩ =
        g.map (fun p => if p.1 = dmKeyOfDay (1000 * n / msPerDay)
          then (p.1, ⟨p.2.revenue, p.2.count + 1⟩) else p)) ∧
    (0 ≤ (getFullYear (nowMs / msPerDay) - getFullYear (1000 * n / msPerDay)) * 12 +
        (getMonth1 (nowMs / msPerDay) - getMonth1 (1000 * n / msPerDay)) →
      (getFullYear (nowMs / msPerDay) - getFullYear (1000 * n / msPerDay)) * 12 +
        (getMonth1 (nowMs / msPerDay) - getMonth1 (1000 * n / msPerDay)) < 12 →
      accumYear nowMs g ⟨t, aSC, aBC⟩ =
        g.map (fun p => if p.1 = BKey.mon (getMonth1 (1000 * n / msPerDay))
          then (p.1, ⟨p.2.revenue, p.2.count + 1⟩) else p)) ∧
    (∀ w : Nat, 0 ≤ (nowMs - 1000 * n) / msPerDay →
      (nowMs - 1000 * n) / msPerDay < (w : Int) →
      hasKey g (dmKeyOfDay (1000 * n / msPerDay)) = true →
      accumDaily w nowMs g ⟨t, some sN, aBC⟩ =
        g.map (fun p => if p.1 = dmKeyOfDay (1000 * n / msPerDay)
          then (p.1, ⟨none, p.2.count + 1⟩) else p)) ∧
    (0 ≤ (getFullYear (nowMs / msPerDay) - getFullYear (1000 * n / msPerDay)) * 12 +
        (getMonth1 (nowMs / msPerDay) - getMonth1 (1000 * n / msPerDay)) →
      (getFullYear (nowMs / msPerDay) - getFullYear (1000 * n / msPerDay)) * 12 +
        (getMonth1 (nowMs / msPerDay) - getMonth1 (1000 * n / msPerDay)) < 12 →
      hasKey g (BKey.mon (getMonth1 (1000 * n / msPerDay))) = true →
      accumYear nowMs g ⟨t, some sN, aBC⟩ =
        g.map (fun p => if p.1 = BKey.mon (getMonth1 (1000 * n / msPerDay))
          then (p.1, ⟨none, p.2.count + 1⟩) else p)) ∧
    finalize [(dmKeyOfDay (1000 * n / msPerDay), ⟨some ⟨0, 1⟩, 1⟩)] =
      [⟨dmKeyOfDay (1000 * n / msPerDay), some ⟨0, 100⟩, 1, some ⟨0, 100⟩⟩] ∧
    finalize [(BKey.mon (getMonth1 (1000 * n / msPerDay)), ⟨none, 1⟩)] =
      [⟨BKey.mon (getMonth1 (1000 * n / msPerDay)), none, 1, none⟩] ∧
    Frac.toRat ⟨0, 100⟩ = 0 := by
  have ham : amountNum aSC = some ⟨0, 1⟩ := by
    rcases hsc with rfl | rfl <;> rfl
  have hamN : amountNum (some sN) = none := by
    show jsParseFloat (if sN = "" then "0" else sN) = none
    rw [if_neg hsN]
    exact hbad
  subst hts
  refine ⟨ham, ?_, ?_, ?_, ?_, rfl, rfl, by norm_num [Frac.toRat_mk]⟩
  · intro w h0 h1
    rw [accumDaily_eq, dailyAction_num hn w nowMs h0 h1 aSC aBC]
    simp only [applyAction]
    by_cases hk : hasKey g (dmKeyOfDay (1000 * n / msPerDay)) = true
    · rw [if_pos hk]
      unfold updateKey
      rw [ham]
      apply List.map_congr_left
      intro p _
      by_cases hp : p.1 = dmKeyOfDay (1000 * n / msPerDay) <;>
        simp [hp, addAmt_zero]
    · rw [if_neg hk]
      exact (map_bump_not_hasKey g _ (Bool.not_eq_true _ ▸ hk)).symm
  · intro h0 h1
    rw [accumYear_eq, yearAction_num hn nowMs h0 h1 aSC aBC]
    simp only [applyAction]
    by_cases hk : hasKey g (BKey.mon (getMonth1 (1000 * n / msPerDay))) = true
    · rw [if_pos hk]
      unfold updateKey
      rw [ham]
      apply List.map_congr_left
      intro p _
      by_cases hp : p.1 = BKey.mon (getMonth1 (1000 * n / msPerDay)) <;>
        simp [hp, addAmt_zero]
    · rw [if_neg hk]
      exact (map_bump_not_hasKey g _ (Bool.not_eq_true _ ▸ hk)).symm
  · intro w h0 h1 hk
    rw [accumDaily_eq, dailyAction_num hn w nowMs h0 h1 (some sN) aBC]
    simp only [applyAction]
    rw [if_pos hk]
    unfold updateKey
    rw [hamN]
    apply List.map_congr_left
    intro p _
    by_cases hp : p.1 = dmKeyOfDay (1000 * n / msPerDay) <;>
      simp [hp, addAmt_none_right]
  · intro h0 h1 hk
    rw [accumYear_eq, yearAction_num hn nowMs h0 h1 (some sN) aBC]
    simp only [applyAction]
    rw [if_pos hk]
    unfold updateKey
    rw [hamN]
    apply List.map_congr_left
    intro p _
    by_cases hp : p.1 = BKey.mon (getMonth1 (1000 * n / msPerDay)) <;>
      simp [hp, addAmt_none_right]

/-- C2 witness: the amended behaviour at `nowMar31` on a two-bucket grouped
record holding both the matched `DD/MM` key and the matched month key: with
an absent amount both loop bodies bump the matched count (5 to 6, 4 to 5) and
leave the revenue at 2; with the unparseable amount "x" both set the matched
revenue to NaN. -/
theorem c2_witness :
    amountNum none = some ⟨0, 1⟩ ∧
    accumDaily 7 nowMar31 [(BKey.dm 31 3, ⟨some ⟨2, 1⟩, 5⟩), (BKey.mon 3, ⟨some ⟨2, 1⟩, 4⟩)]
        ⟨some (TsVal.num tsMar31), none, none⟩ =
      [(BKey.dm 31 3, ⟨some ⟨2, 1⟩, 5⟩), (BKey.mon 3, ⟨some ⟨2, 1⟩, 4⟩)].map
        (fun p => if p.1 = dmKeyOfDay (1000 * tsMar31 / msPerDay)
          then (p.1, ⟨p.2.revenue, p.2.count + 1⟩) else p) ∧
    accumYear nowMar31 [(BKey.dm 31 3, ⟨some ⟨2, 1⟩, 5⟩), (BKey.mon 3, ⟨some ⟨2, 1⟩, 4⟩)]
        ⟨some (TsVal.num tsMar31), none, none⟩ =
      [(BKey.dm 31 3, ⟨some ⟨2, 1⟩, 5⟩), (BKey.mon 3, ⟨some ⟨2, 1⟩, 4⟩)].map
        (fun p => if p.1 = BKey.mon (getMonth1 (1000 * tsMar31 / msPerDay))
          then (p.1, ⟨p.2.revenue, p.2.count + 1⟩) else p) ∧
    accumDaily 7 nowMar31 [(BKey.dm 31 3, ⟨some ⟨2, 1⟩, 5⟩), (BKey.mon 3, ⟨some ⟨2, 1⟩, 4⟩)]
        ⟨some (TsVal.num tsMar31), some "x", none⟩ =
      [(BKey.dm 31 3, ⟨some ⟨2, 1⟩, 5⟩), (BKey.mon 3, ⟨some ⟨2, 1⟩, 4⟩)].map
        (fun p => if p.1 = dmKeyOfDay (1000 * tsMar31 / msPerDay)
          then (p.1, ⟨none, p.2.count + 1⟩) else p) ∧
    accumYear nowMar31 [(BKey.dm 31 3, ⟨some ⟨2, 1⟩, 5⟩), (BKey.mon 3, ⟨some ⟨2, 1⟩, 4⟩)]
        ⟨some (TsVal.num tsMar31), some "x", none⟩ =
      [(BKey.dm 31 3, ⟨some ⟨2, 1⟩, 5⟩), (BKey.mon 3, ⟨some ⟨2, 1⟩, 4⟩)].map
        (fun p => if p.1 = BKey.mon (getMonth1 (1000 * tsMar31 / msPerDay))
          then (p.1, ⟨none, p.2.count + 1⟩) else p) ∧
    finalize [(dmKeyOfDay (1000 * tsMar31 / msPerDay), ⟨some ⟨0, 1⟩, 1⟩)] =
      [⟨dmKeyOfDay (1000 * tsMar31 / msPerDay), some ⟨0, 100⟩, 1, some ⟨0, 100⟩⟩] ∧
    finalize [(BKey.mon (getMonth1 (1000 * tsMar31 / msPerDay)), ⟨none, 1⟩)] =
      [⟨BKey.mon (getMonth1 (1000 * tsMar31 / msPerDay)), none, 1, none⟩] ∧
    Frac.toRat ⟨0, 100⟩ = 0 := by
  have h := c2_absent_amount nowMar31
    [(BKey.dm 31 3, ⟨some ⟨2, 1⟩, 5⟩), (BKey.mon 3, ⟨some ⟨2, 1⟩, 4⟩)] _ none none tsMar31
    rfl (by decide) (Or.inl rfl) "x" (by decide) (by decide)
  exact ⟨h.1, h.2.1 7 (by decide) (by decide), h.2.2.1 (by decide) (by decide),
    h.2.2.2.1 7 (by decide) (by decide) (by decide),
    h.2.2.2.2.1 (by decide) (by decide) (by decide),
    h.2.2.2.2.2.1, h.2.2.2.2.2.2.1, h.2.2.2.2.2.2.2⟩

/-- C2 counterexample: an in-window event whose `amountSC` is the unparseable
string "x" still increments the bucket count, but `parseFloat("x")` is NaN,
so the bucket's revenue and fees become NaN (`none`), not 0. -/
theorem c2_counterexample :
    (generateChartData [⟨some (TsVal.num tsMar31), some "x", none⟩]
        TimePeriod.week nowMar31).map (fun b => (b.transactions, b.revenue, b.fees)) =
      [(0, some ⟨0, 100⟩, some ⟨0, 100⟩), (0, some ⟨0, 100⟩, some ⟨0, 100⟩),
       (0, some ⟨0, 100⟩, some ⟨0, 100⟩), (0, some ⟨0, 100⟩, some ⟨0, 100⟩),
       (0, some ⟨0, 100⟩, some ⟨0, 100⟩), (0, some ⟨0, 100⟩, some ⟨0, 100⟩),
       (1, none, none)] ∧ (none : Option Frac) ≠ some ⟨0, 100⟩ := by
  constructor <;> decide

/-- C5 counterexample: an event whose `timestamp` is the numeric string
"1774954800" is truthy and `Number()` coerces it, so it is bucketed (count 1
in the newest week bucket) rather than excluded. -/
theorem c5_counterexample :
    (generateChartData [⟨some (TsVal.str "1774954800"), none, none⟩]
        TimePeriod.week nowMar31).map (fun b => b.transactions) =
      [0, 0, 0, 0, 0, 0, 1] := by
  decide

/-- C5 amended: a string timestamp is excluded only when it is empty (falsy)
or fails to convert to a finite number (`Number` gives NaN, or an Infinity,
which likewise yields an invalid Date); a string converting to a nonzero
integer behaves exactly like the corresponding numeric timestamp for every
period, and any string converting to a nonzero finite value — fractional and
exponent numerals included — is bucketed by the daily loops at the
truncated-millisecond instant `trunc(1000 * value)` when it is in window and
its key is in the skeleton. -/
theorem c5_string_timestamp (s : String) (a b : Option String) (nowMs : Int) :
    (∀ n : Int, strToNumber s = some ⟨n, 1⟩ → n ≠ 0 →
      ∀ (pre post : List TransactionEvent) (p : TimePeriod),
      generateChartData (pre ++ ⟨some (TsVal.str s), a, b⟩ :: post) p nowMs =
        generateChartData (pre ++ ⟨some (TsVal.num n), a, b⟩ :: post) p nowMs) ∧
    (∀ v : Frac, strToNumber s = some v → v.num ≠ 0 →
      ∀ (g : GroupedData) (w : Nat),
      0 ≤ (nowMs - msOfNumber v) / msPerDay →
      (nowMs - msOfNumber v) / msPerDay < (w : Int) →
      hasKey g (dmKeyOfDay (msOfNumber v / msPerDay)) = true →
      accumDaily w nowMs g ⟨some (TsVal.str s), a, b⟩ =
        updateKey g (dmKeyOfDay (msOfNumber v / msPerDay)) (amountNum a)) ∧
    (strToNumber s = none →
      ∀ (g : GroupedData) (w : Nat),
        accumDaily w nowMs g ⟨some (TsVal.str s), a, b⟩ = g ∧
        accumYear nowMs g ⟨some (TsVal.str s), a, b⟩ = g) := by
  refine ⟨?_, ?_, ?_⟩
  · intro n hs hn pre post p
    have hne : ∀ (e : TransactionEvent), (pre ++ e :: post).isEmpty = false := by
      intro e
      rcases pre with _ | ⟨q, qs⟩ <;> rfl
    unfold generateChartData
    rw [hne, hne]
    simp only [Bool.false_eq_true, if_false]
    cases p
    · exact congrArg finalize (foldl_congr_mid _ pre post _ _
        (fun g => by rw [accumDaily_eq, accumDaily_eq, dailyAction_str_num s n hs hn a b 7 nowMs]) _)
    · exact congrArg finalize (foldl_congr_mid _ pre post _ _
        (fun g => by rw [accumDaily_eq, accumDaily_eq, dailyAction_str_num s n hs hn a b 30 nowMs]) _)
    · exact congrArg finalize (foldl_congr_mid _ pre post _ _
        (fun g => by rw [accumYear_eq, accumYear_eq, yearAction_str_num s n hs hn a b nowMs]) _)
  · intro v hs hv g w h0 h1 hk
    have hse : s ≠ "" := strToNumber_ne_empty hs hv
    have hst : tsTruthy (some (TsVal.str s)) = true := by
      simp [tsTruthy, hse]
    have htv : toNumberOfTs (some (TsVal.str s)) = some v := by
      simp [toNumberOfTs, hs]
    simp only [accumDaily, hst, htv, if_true]
    rw [if_pos ⟨h0, h1⟩, if_pos hk]
  · intro hs g w
    by_cases hse : s = ""
    · subst hse
      exact ⟨rfl, rfl⟩
    · constructor
      · simp [accumDaily, toNumberOfTs, tsTruthy, hse, hs]
      · simp [accumYear, toNumberOfTs, tsTruthy, hse, hs]

/-- C5 witness: the integer strings "1774954800" and "1e9" give the same week
series as the corresponding numbers; the fractional string "12.5" is bucketed
by the weekly loop at 12500 ms; the unconvertible string "zz" is skipped. -/
theorem c5_witness :
    generateChartData ([] ++ ⟨some (TsVal.str "1774954800"), none, none⟩ :: [junkEvent])
        TimePeriod.week nowMar31 =
      generateChartData ([] ++ ⟨some (TsVal.num 1774954800), none, none⟩ :: [junkEvent])
        TimePeriod.week nowMar31 ∧
    generateChartData ([] ++ ⟨some (TsVal.str "1e9"), none, none⟩ :: [])
        TimePeriod.week (1000000000000 + 43200000) =
      generateChartData ([] ++ ⟨some (TsVal.num 1000000000), none, none⟩ :: [])
        TimePeriod.week (1000000000000 + 43200000) ∧
    accumDaily 7 43200000 (buildSkel (skelKeysDaily 7 43200000))
        ⟨some (TsVal.str "12.5"), some "0.25", none⟩ =
      updateKey (buildSkel (skelKeysDaily 7 43200000))
        (dmKeyOfDay (msOfNumber ⟨125, 10⟩ / msPerDay)) (amountNum (some "0.25")) ∧
    accumDaily 7 nowMar31 [] ⟨some (TsVal.str "zz"), none, none⟩ = [] := by
  refine ⟨?_, ?_, ?_, ?_⟩
  · exact (c5_string_timestamp "1774954800" none none nowMar31).1 1774954800
      (by decide) (by decide) [] [junkEvent] TimePeriod.week
  · exact (c5_string_timestamp "1e9" none none (1000000000000 + 43200000)).1 1000000000
      (by decide) (by decide) [] [] TimePeriod.week
  · exact (c5_string_timestamp "12.5" (some "0.25") none 43200000).2.1 ⟨125, 10⟩
      (by decide) (by decide) (buildSkel (skelKeysDaily 7 43200000)) 7
      (by decide) (by decide) (by decide)
  · exact ((c5_string_timestamp "zz" none none nowMar31).2.2
      (by decide) [] 7).1

/-- C7 counterexample: at `nowMar31` the empty-list year series has 12 points
(with duplicated month labels), while a populated run's skeleton de-duplicates
the collapsed month names and has only 7 — the empty series does not match
the populated skeleton's length or label sequence. -/
theorem c7_counterexample :
    ¬ ((generateChartData [] TimePeriod.year nowMar31).map (fun b => b.date) =
        (generateChartData [junkEvent] TimePeriod.year nowMar31).map (fun b => b.date)) ∧
    (generateChartData [] TimePeriod.year nowMar31).length = 12 ∧
    (generateChartData [junkEvent] TimePeriod.year nowMar31).length = 7 := by
  refine ⟨by decide, by decide, by decide⟩

/-- C7 amended: the empty-list series is all zeros (revenue 0, count 0,
fees 0 in value), and matches a populated run's label sequence and length for
the week and month periods always, and for the year period whenever `now`'s
day-of-month is at most 28 (at day 29-31 the populated skeleton may collapse,
see the counterexample). -/
theorem c7_empty_series (p : TimePeriod) (nowMs : Int) (txs : List TransactionEvent)
    (hne : txs ≠ []) (h28 : p = TimePeriod.year → getDate (nowMs / msPerDay) ≤ 28) :
    (generateChartData [] p nowMs).map
        (fun b => (b.revenue.map Frac.toRat, b.transactions, b.fees.map Frac.toRat)) =
      List.replicate (daysToShow p) ((some 0 : Option ℚ), 0, (some 0 : Option ℚ)) ∧
    (generateChartData [] p nowMs).map (fun b => b.date) =
      (generateChartData txs p nowMs).map (fun b => b.date) ∧
    (generateChartData [] p nowMs).length = (generateChartData txs p nowMs).length := by
  have hzero : (generateChartData [] p nowMs).map
      (fun b => (b.revenue.map Frac.toRat, b.transactions, b.fees.map Frac.toRat)) =
      List.replicate (daysToShow p) ((some 0 : Option ℚ), 0, (some 0 : Option ℚ)) := by
    rw [List.eq_replicate_iff]
    constructor
    · cases p <;> simp [generateChartData, getEmptyChartData, daysToShow]
    · intro x hx
      rw [List.mem_map] at hx
      obtain ⟨bk, hbk, hval⟩ := hx
      have hb2 : bk ∈ getEmptyChartData p nowMs := hbk
      cases p <;>
        (simp only [getEmptyChartData, List.mem_map, List.mem_range] at hb2
         obtain ⟨j, _, hj⟩ := hb2
         rw [← hval, ← hj]
         norm_num [Frac.toRat_mk])
  have hlab : (generateChartData [] p nowMs).map (fun b => b.date) =
      (generateChartData txs p nowMs).map (fun b => b.date) := by
    cases p
    · exact (getEmpty_labels_week nowMs).trans (gen_labels_week nowMs hne).symm
    · exact (getEmpty_labels_month nowMs).trans (gen_labels_month nowMs hne).symm
    · exact (getEmpty_labels_year nowMs).trans (gen_labels_year nowMs hne (h28 rfl)).symm
  refine ⟨hzero, hlab, ?_⟩
  have h := congrArg List.length hlab
  simpa using h

/-- C7 witness: the amended statement for the year period at the epoch
instant (day-of-month 1) against a one-junk-event populated run. -/
theorem c7_witness :
    (generateChartData [] TimePeriod.year 0).map
        (fun b => (b.revenue.map Frac.toRat, b.transactions, b.fees.map Frac.toRat)) =
      List.replicate (daysToShow TimePeriod.year) ((some 0 : Option ℚ), 0, (some 0 : Option ℚ)) ∧
    (generateChartData [] TimePeriod.year 0).map (fun b => b.date) =
      (generateChartData [junkEvent] TimePeriod.year 0).map (fun b => b.date) ∧
    (generateChartData [] TimePeriod.year 0).length =
      (generateChartData [junkEvent] TimePeriod.year 0).length :=
  c7_empty_series TimePeriod.year 0 [junkEvent] (by decide) (fun _ => by decide)

/-- C8: the aggregation is a total function whose output shape never depends
on event contents: an empty list yields the fixed-length placeholder series,
and for every nonempty list — malformed events included — the emitted labels
are exactly the skeleton's keys for that period and `now`; malformed events
are skipped, never rejected. -/
theorem c8_total_shape (txs : List TransactionEvent) (p : TimePeriod) (nowMs : Int) :
    (txs = [] → (generateChartData txs p nowMs).length = daysToShow p) ∧
    (txs ≠ [] → (generateChartData txs p nowMs).map (fun b => b.date) =
      (buildSkel (skelKeys p nowMs)).map Prod.fst) := by
  constructor
  · intro h
    subst h
    exact length_getEmpty p nowMs
  · intro h
    exact gen_labels p nowMs h

/-- C8 witness: the shape facts at `nowMar31` for the month period, on the
empty list and on a list of three maximally malformed events. -/
theorem c8_witness :
    (generateChartData [] TimePeriod.month nowMar31).length = daysToShow TimePeriod.month ∧
    (generateChartData [⟨some (TsVal.str "xx"), some "abc", none⟩, junkEvent,
        ⟨some (TsVal.num 0), none, some "5"⟩] TimePeriod.month nowMar31).map (fun b => b.date) =
      (buildSkel (skelKeys TimePeriod.month nowMar31)).map Prod.fst := by
  constructor
  · exact (c8_total_shape [] TimePeriod.month nowMar31).1 rfl
  · exact (c8_total_shape [⟨some (TsVal.str "xx"), some "abc", none⟩, junkEvent,
      ⟨some (TsVal.num 0), none, some "5"⟩] TimePeriod.month nowMar31).2 (by decide)

/-- C6: the output is invariant under permutation of the event list, and the
emitted labels are the oldest-first skeleton walk: for the daily periods the
walk `now-(w-1), ..., now` of `DD/MM` keys (always), and for the year period
the 12-month walk whenever `now`'s day-of-month is at most 28 (with a
collapsed walk the labels still follow first-construction order, which the
general label lemma `gen_labels` records). -/
theorem c6_order_perm (txs txs' : List TransactionEvent) (p : TimePeriod) (nowMs : Int)
    (hperm : List.Perm txs txs') :
    generateChartData txs p nowMs = generateChartData txs' p nowMs ∧
    (generateChartData txs TimePeriod.week nowMs).map (fun b => b.date) =
      skelKeysDaily 7 nowMs ∧
    (generateChartData txs TimePeriod.month nowMs).map (fun b => b.date) =
      skelKeysDaily 30 nowMs ∧
    (getDate (nowMs / msPerDay) ≤ 28 →
      (generateChartData txs TimePeriod.year nowMs).map (fun b => b.date) =
        skelKeysYear nowMs) := by
  have hmain : generateChartData txs p nowMs = generateChartData txs' p nowMs := by
    by_cases he : txs = []
    · subst he
      rw [hperm.symm.eq_nil]
    · have he' : txs' ≠ [] := by
        intro h
        subst h
        exact he hperm.eq_nil
      unfold generateChartData
      rw [if_neg (by simp [he]), if_neg (by simp [he'])]
      cases p
      · rw [accumDaily_funext 7 nowMs]
        exact congrArg finalize (foldl_applyAction_perm (dailyAction 7 nowMs) hperm _)
      · rw [accumDaily_funext 30 nowMs]
        exact congrArg finalize (foldl_applyAction_perm (dailyAction 30 nowMs) hperm _)
      · rw [accumYear_funext nowMs]
        exact congrArg finalize (foldl_applyAction_perm (yearAction nowMs) hperm _)
  refine ⟨hmain, ?_, ?_, ?_⟩
  · by_cases he : txs = []
    · subst he
      exact getEmpty_labels_week nowMs
    · exact gen_labels_week nowMs he
  · by_cases he : txs = []
    · subst he
      exact getEmpty_labels_month nowMs
    · exact gen_labels_month nowMs he
  · intro h28
    by_cases he : txs = []
    · subst he
      exact getEmpty_labels_year nowMs
    · exact gen_labels_year nowMs he h28

/-- C6 witness: swapping a two-event list at the epoch instant leaves the
output unchanged, and the label walks hold there. -/
theorem c6_witness :
    generateChartData [junkEvent, ⟨some (TsVal.num 86400), some "2", none⟩]
        TimePeriod.week 0 =
      generateChartData [⟨some (TsVal.num 86400), some "2", none⟩, junkEvent]
        TimePeriod.week 0 ∧
    (generateChartData [junkEvent, ⟨some (TsVal.num 86400), some "2", none⟩]
        TimePeriod.week 0).map (fun b => b.date) = skelKeysDaily 7 0 ∧
    (generateChartData [junkEvent, ⟨some (TsVal.num 86400), some "2", none⟩]
        TimePeriod.month 0).map (fun b => b.date) = skelKeysDaily 30 0 ∧
    (generateChartData [junkEvent, ⟨some (TsVal.num 86400), some "2", none⟩]
        TimePeriod.year 0).map (fun b => b.date) = skelKeysYear 0 := by
  have h := c6_order_perm [junkEvent, ⟨some (TsVal.num 86400), some "2", none⟩]
    [⟨some (TsVal.num 86400), some "2", none⟩, junkEvent] TimePeriod.week 0
    (List.Perm.swap (⟨some (TsVal.num 86400), some "2", none⟩ : TransactionEvent) junkEvent [])
  exact ⟨h.1, h.2.1, h.2.2.1, h.2.2.2 (by decide)⟩

theorem dailyAction_num_out {n : Int} (hn : n ≠ 0) (w : Nat) (nowMs : Int)
    (h : ¬ (0 ≤ (nowMs - 1000 * n) / msPerDay ∧
      (nowMs - 1000 * n) / msPerDay < (w : Int))) (a b : Option String) :
    dailyAction w nowMs ⟨some (TsVal.num n), a, b⟩ = none := by
  simp [dailyAction, toNumberOfTs, tsTruthy, msOfNumber_int, hn, h]

/-- C4 counterexample: the claim quantifies over every event within the
boundary days, but an event at epoch second 0 (a valid instant inside day 0)
is falsy and dropped before the window check: with `now` in day 6 its
whole-day difference is `7 - 1 = 6`, yet no bucket receives it. -/
theorem c4_counterexample :
    ((6 * 86400000 + 43200000 : Int) / msPerDay - 1000 * (0 : Int) / msPerDay = 7 - 1) ∧
    (generateChartData [⟨some (TsVal.num 0), some "5", none⟩] TimePeriod.week
        (6 * 86400000 + 43200000)).map (fun b => b.transactions) =
      [0, 0, 0, 0, 0, 0, 0] := by
  constructor <;> decide

/-- C4 amended: for the daily periods and an event with a usable (nonzero
numeric) timestamp, a whole-day difference of exactly `w` contributes to no
bucket, and a whole-day difference of `w - 1` contributes to exactly the
oldest (head) bucket — for every `now` and every time-of-day of the event
within its day. -/
theorem c4_windowing (w : Nat) (nowMs n : Int) (aSC aBC : Option String)
    (hw : w = 7 ∨ w = 30) (hn : n ≠ 0) :
    (1000 * n / msPerDay = nowMs / msPerDay - (w : Int) →
      accumDaily w nowMs (buildSkel (skelKeysDaily w nowMs)) ⟨some (TsVal.num n), aSC, aBC⟩ =
        buildSkel (skelKeysDaily w nowMs)) ∧
    (1000 * n / msPerDay = nowMs / msPerDay - ((w : Int) - 1) →
      accumDaily w nowMs (buildSkel (skelKeysDaily w nowMs)) ⟨some (TsVal.num n), aSC, aBC⟩ =
        List.modifyHead (fun p => (p.1, ⟨addAmt p.2.revenue (amountNum aSC), p.2.count + 1⟩))
          (buildSkel (skelKeysDaily w nowMs))) := by
  have hw2 : 2 ≤ w ∧ w ≤ 30 := by
    rcases hw with rfl | rfl <;> norm_num
  constructor
  · intro hout
    rw [accumDaily_eq]
    have hdd : (nowMs - 1000 * n) / msPerDay = (w : Int) - 1 ∨
        (nowMs - 1000 * n) / msPerDay = (w : Int) := by
      unfold msPerDay at hout ⊢
      omega
    rcases hdd with hdd | hdd
    · rw [dailyAction_num hn w nowMs (by omega) (by omega) aSC aBC]
      simp only [applyAction]
      rw [if_neg]
      intro hk
      rw [hasKey_buildSkel] at hk
      unfold skelKeysDaily at hk
      rw [List.mem_map] at hk
      obtain ⟨j, hj, hkey⟩ := hk
      rw [List.mem_range] at hj
      refine @dmKeyOfDay_inj30 (nowMs / msPerDay - ((w : Int) - 1) + Int.ofNat j)
        (1000 * n / msPerDay) ?_ ?_ ?_ hkey
      all_goals
        rw [hout]
        simp only [Int.ofNat_eq_natCast]
        omega
    · rw [dailyAction_num_out hn w nowMs (by omega) aSC aBC]
      rfl
  · intro hold
    have hin : 0 ≤ (nowMs - 1000 * n) / msPerDay ∧
        (nowMs - 1000 * n) / msPerDay < (w : Int) := by
      unfold msPerDay at hold ⊢
      omega
    rw [accumDaily_eq, dailyAction_num hn w nowMs hin.1 hin.2 aSC aBC]
    simp only [applyAction]
    rw [hold]
    obtain ⟨w', rfl⟩ : ∃ w', w = w' + 1 := ⟨w - 1, by omega⟩
    have hE0 : nowMs / msPerDay - (((w' + 1 : Nat) : Int) - 1) + Int.ofNat 0 =
        nowMs / msPerDay - (((w' + 1 : Nat) : Int) - 1) := by
      simp
    have hdec : skelKeysDaily (w' + 1) nowMs =
        dmKeyOfDay (nowMs / msPerDay - (((w' + 1 : Nat) : Int) - 1)) ::
          (List.range w').map (fun j =>
            dmKeyOfDay (nowMs / msPerDay - (((w' + 1 : Nat) : Int) - 1) +
              Int.ofNat (Nat.succ j))) := by
      unfold skelKeysDaily
      rw [List.range_succ_eq_map]
      simp only [List.map_cons, List.map_map]
      rw [hE0]
      rfl
    have hnd : (skelKeysDaily (w' + 1) nowMs).Nodup :=
      skelKeysDaily_nodup (w' + 1) (by omega) nowMs
    rw [buildSkel_eq_of_nodup hnd, hdec]
    simp only [List.map_cons]
    have hhead : hasKey
        ((dmKeyOfDay (nowMs / msPerDay - (((w' + 1 : Nat) : Int) - 1)),
            (⟨some ⟨0, 1⟩, 0⟩ : RawBucket)) ::
          ((List.range w').map (fun j =>
            dmKeyOfDay (nowMs / msPerDay - (((w' + 1 : Nat) : Int) - 1) +
              Int.ofNat (Nat.succ j)))).map (fun k => (k, (⟨some ⟨0, 1⟩, 0⟩ : RawBucket))))
        (dmKeyOfDay (nowMs / msPerDay - (((w' + 1 : Nat) : Int) - 1))) = true := by
      simp [hasKey]
    rw [if_pos hhead]
    apply updateKey_cons_head
    rw [← Bool.not_eq_true, hasKey_true_iff, map_fst_skelmap]
    intro hmem
    rw [List.mem_map] at hmem
    obtain ⟨j, hj, hkey⟩ := hmem
    rw [List.mem_range] at hj
    refine @dmKeyOfDay_inj30
      (nowMs / msPerDay - (((w' + 1 : Nat) : Int) - 1) + Int.ofNat (Nat.succ j))
      (nowMs / msPerDay - (((w' + 1 : Nat) : Int) - 1)) ?_ ?_ ?_ hkey
    all_goals
      simp only [Int.ofNat_eq_natCast]
      push_cast
      omega

/-- C4 witness: the amended windowing at `nowMar31` for the week period,
with events exactly 7 and 6 whole days back (each at 11:00 within its day). -/
theorem c4_witness :
    (accumDaily 7 nowMar31 (buildSkel (skelKeysDaily 7 nowMar31))
        ⟨some (TsVal.num (tsMar31 - 7 * 86400)), some "5", none⟩ =
      buildSkel (skelKeysDaily 7 nowMar31)) ∧
    (accumDaily 7 nowMar31 (buildSkel (skelKeysDaily 7 nowMar31))
        ⟨some (TsVal.num (tsMar31 - 6 * 86400)), some "5", none⟩ =
      List.modifyHead (fun p => (p.1, ⟨addAmt p.2.revenue (amountNum (some "5")),
          p.2.count + 1⟩))
        (buildSkel (skelKeysDaily 7 nowMar31))) := by
  constructor
  · exact (c4_windowing 7 nowMar31 (tsMar31 - 7 * 86400) (some "5") none
      (Or.inl rfl) (by decide)).1 (by decide)
  · exact (c4_windowing 7 nowMar31 (tsMar31 - 6 * 86400) (some "5") none
      (Or.inl rfl) (by decide)).2 (by decide)

end StablePay
